import Mathlib

/-!
Verification development for the `rmpv` serde-to-value conversion layer
(`src/rmpv/src/ext/se.rs`): a shallow embedding of the value tree, of the
generic serialization protocol that drives the `Serializer`, of the
extension-capture sub-protocol (`ExtSerializer` / `ExtFieldSerializer`),
and of the map builder (`DefaultSerializeMap`), together with theorems
about the conversion rules.

Machine integers are embedded as `Nat` / `Int` (`u8`/`u16`/`u32`/`u64`
payloads as `Nat`, `i8`/`i16`/`i32`/`i64` as `Int`); byte buffers as
`List Nat`; IEEE-754 payloads are carried opaquely as bit patterns, since
the conversion code never inspects them.
-/

namespace Rmpv

/-- Modelled from the spec (§3): the sign class of an integer node, "signed or
unsigned 64-bit magnitude; sign-class tracked internally". The constructor
names `PosInt` (unsigned, `u64`) and `NegInt` (signed, `i64`) are the ones the
source pattern-matches on (`IntPriv::PosInt` / `IntPriv::NegInt`). -/
inductive IntPriv where
  | PosInt (n : Nat)
  | NegInt (n : Int)
deriving DecidableEq

/-- Modelled from the spec (§3): the integer node wrapper; the source matches
`Value::Integer(Integer { n })`. -/
structure Integer where
  n : IntPriv
deriving DecidableEq

/-- Modelled from the spec (§3): a string node holds either valid UTF-8 text
or, in a fallback slot, the raw bytes that failed validation; the two are
mutually exclusive. The source matches on the `Result` field `s` of
`Utf8String` (`Ok(text)` / `Err(bytes)`). -/
structure Utf8String where
  s : Except (List Nat) String

/-- Modelled from the spec (§3): the target value tree, the closed set of
MessagePack node variants that `se.rs` populates. Float payloads are opaque
bit patterns; byte payloads are `u8` lists. -/
inductive Value where
  | Nil
  | Boolean (b : Bool)
  | Integer (i : Integer)
  | F32 (bits : Nat)
  | F64 (bits : Nat)
  | String (s : Utf8String)
  | Binary (b : List Nat)
  | Array (items : List Value)
  | Map (entries : List (Value × Value))
  | Ext (tag : Int) (payload : List Nat)

/-- Modelled from the spec (§7): the single error kind, carrying a
human-readable message; mirrors `ext::Error::Syntax(String)`, the variant the
source constructs (directly at line 442 and through `ser::Error::custom`). -/
inductive Error where
  | Syntax (msg : String)
deriving DecidableEq

/-- Modelled from the spec (§6): the reserved sentinel name for extension
construction, "a fixed, implementation-chosen string constant". Its exact
text is irrelevant to the conversion rules; only equality with it is tested. -/
def MSGPACK_EXT_STRUCT_NAME : String := "_ExtStruct"

/-- Modelled from the spec (§4.1): `Value::from` on an unsigned 64-bit value
wraps it as an unsigned-magnitude `Integer` (`PosInt`). -/
def Value.fromU64 (n : Nat) : Value := Value.Integer ⟨IntPriv.PosInt n⟩

/-- Modelled from the spec (§4.1): `Value::from` on a signed 64-bit value
wraps it as a signed-magnitude `Integer` (`NegInt`). -/
def Value.fromI64 (v : Int) : Value := Value.Integer ⟨IntPriv.NegInt v⟩

/-- Modelled from the spec (§4.1): `Value::from` on a `u32` (the variant index)
zero-extends to 64 bits and wraps as an unsigned-magnitude `Integer`. -/
def Value.fromU32 (n : Nat) : Value := Value.fromU64 n

/-- Modelled from the spec (§8): the "unsigned view" of an integer node — the
exact magnitude when the node is in the unsigned class. -/
def Integer.as_u64 : Integer → Option Nat
  | ⟨IntPriv.PosInt n⟩ => Option.some n
  | ⟨IntPriv.NegInt _⟩ => Option.none

/-- Modelled from the spec (§8): the "signed view" of an integer node — the
exact value when the node is in the signed class. -/
def Integer.as_i64 : Integer → Option Int
  | ⟨IntPriv.NegInt v⟩ => Option.some v
  | ⟨IntPriv.PosInt _⟩ => Option.none

/-- The serde data model: one node per way a `Serialize` implementation can
drive a serializer through the generic protocol. Each constructor corresponds
to exactly one `serialize_*` entry point of `ser::Serializer`; composite
constructors carry the elements the implementation subsequently feeds to the
returned builder, in call order. Variant indices (`u32`) are `Nat`. -/
inductive SerInput where
  | bool (b : Bool)
  | i8 (v : Int)
  | i16 (v : Int)
  | i32 (v : Int)
  | i64 (v : Int)
  | u8 (v : Nat)
  | u16 (v : Nat)
  | u32 (v : Nat)
  | u64 (v : Nat)
  | f32 (bits : Nat)
  | f64 (bits : Nat)
  | char (c : Char)
  | str (s : String)
  | bytes (b : List Nat)
  | unit
  | unitStruct (name : String)
  | unitVariant (name : String) (idx : Nat) (variant : String)
  | newtypeStruct (name : String) (value : SerInput)
  | newtypeVariant (name : String) (idx : Nat) (variant : String) (value : SerInput)
  | none
  | some (value : SerInput)
  | seq (items : List SerInput)
  | tuple (items : List SerInput)
  | tupleStruct (name : String) (items : List SerInput)
  | tupleVariant (name : String) (idx : Nat) (variant : String) (items : List SerInput)
  | map (entries : List (SerInput × SerInput))
  | struct (name : String) (fields : List (String × SerInput))
  | structVariant (name : String) (idx : Nat) (variant : String) (fields : List (String × SerInput))

/-- Whether a serde call is the tuple composite-open (`serialize_tuple`). -/
def SerInput.isTuple : SerInput → Bool
  | .tuple _ => true
  | _ => false

/-- Whether a value node is the extension variant. -/
def Value.isExt : Value → Bool
  | .Ext _ _ => true
  | _ => false

/-- State of `ExtFieldSerializer` (se.rs:452-455): the pending tag and the
pending binary payload of an extension under capture. -/
structure ExtFieldSerializer where
  tag : Option Int
  binary : Option (List Nat)

/-- `impl ser::Serializer for &mut ExtFieldSerializer` (se.rs:457-624): the
inner stage of extension capture. `serialize_i8` stores the tag if none is
pending and fails with "received second i8" otherwise (469-477);
`serialize_bytes` stores the payload if none is pending and fails with
"expected i8 and bytes" otherwise (479-488); every other `serialize_*`
method fails with "expected i8 and bytes" (490-623). -/
def ExtFieldSerializer.serialize : ExtFieldSerializer → SerInput → Except Error ExtFieldSerializer
  | st, .i8 v =>
    match st.tag with
    | Option.none => .ok { st with tag := Option.some v }
    | Option.some _ => .error (Error.Syntax "received second i8")
  | st, .bytes b =>
    match st.binary with
    | Option.none => .ok { st with binary := Option.some b }
    | Option.some _ => .error (Error.Syntax "expected i8 and bytes")
  | _, _ => .error (Error.Syntax "expected i8 and bytes")

/-- `ExtFieldSerializer::value` (se.rs:649-656): finalization of the inner
stage, the four-arm match over `(tag, binary)`. -/
def ExtFieldSerializer.value : ExtFieldSerializer → Except Error Value
  | ⟨Option.some tag, Option.some binary⟩ => .ok (Value.Ext tag binary)
  | ⟨Option.some _, Option.none⟩ => .error (Error.Syntax "expected i8 and bytes")
  | ⟨Option.none, Option.some _⟩ => .error (Error.Syntax "expected i8 and bytes")
  | ⟨Option.none, Option.none⟩ => .error (Error.Syntax "expected i8 and bytes")

/-- Feeding the open tuple's elements, in order, through the inner-stage
serializer (`SerializeTuple::serialize_element` for `&mut ExtSerializer`,
se.rs:434-444, which forwards each element to the installed
`ExtFieldSerializer`); `end` (447-449) returns the state unchanged. -/
def extFieldFold : ExtFieldSerializer → List SerInput → Except Error ExtFieldSerializer
  | st, [] => .ok st
  | st, x :: xs =>
    match st.serialize x with
    | .error e => .error e
    | .ok st2 => extFieldFold st2 xs

/-- State of `ExtSerializer` (se.rs:264-266): the outer stage of extension
capture; `fields_se` is present once the tuple has been opened. -/
structure ExtSerializer where
  fields_se : Option ExtFieldSerializer

/-- `impl ser::Serializer for &mut ExtSerializer` (se.rs:268-428): the outer
stage. `serialize_tuple` (396-402) installs a fresh `ExtFieldSerializer` and
the tuple's elements are then driven through it; every other `serialize_*`
method (280-427) fails with "expected tuple". -/
def ExtSerializer.serialize : ExtSerializer → SerInput → Except Error ExtSerializer
  | _, .tuple items =>
    match extFieldFold ⟨Option.none, Option.none⟩ items with
    | .error e => .error e
    | .ok fs => .ok ⟨Option.some fs⟩
  | _, _ => .error (Error.Syntax "expected tuple")

/-- `ExtSerializer::value` (se.rs:632-637): finalization of the outer stage —
delegate to the installed field serializer, or fail with "expected tuple" when
no tuple was ever opened. -/
def ExtSerializer.value : ExtSerializer → Except Error Value
  | ⟨Option.some fs⟩ => fs.value
  | ⟨Option.none⟩ => .error (Error.Syntax "expected tuple")

/-- The extension-capture entry sequence of `serialize_newtype_struct`
(se.rs:186-190): drive the wrapped value through a fresh `ExtSerializer`
(`value.serialize(&mut ext_se)?`), then finalize (`ext_se.value()`). -/
def extCapture (v : SerInput) : Except Error Value :=
  match ExtSerializer.serialize ⟨Option.none⟩ v with
  | .error e => .error e
  | .ok st => st.value

mutual
/-- `to_value` / `impl ser::Serializer for Serializer` (se.rs:75-77, 79-262):
the conversion driver. Each branch embeds the `serialize_*` method the
corresponding serde call reaches; composite branches embed the builder the
method returns (`SerializeVec`, `SerializeTupleVariant`, `DefaultSerializeMap`,
`SerializeStructVariant`, se.rs:684-819) run over the elements in call order,
with `?`-style early return on the first element error. -/
def toValue : SerInput → Except Error Value
  -- serialize_bool (92-94)
  | .bool b => .ok (Value.Boolean b)
  -- serialize_i8/i16/i32 (96-109): i64::from sign-extends, value unchanged
  | .i8 v => .ok (Value.fromI64 v)
  | .i16 v => .ok (Value.fromI64 v)
  | .i32 v => .ok (Value.fromI64 v)
  -- serialize_i64 (111-114): Ok(Value::from(val))
  | .i64 v => .ok (Value.fromI64 v)
  -- serialize_u8/u16/u32 (116-129): u64::from zero-extends, value unchanged
  | .u8 v => .ok (Value.fromU64 v)
  | .u16 v => .ok (Value.fromU64 v)
  | .u32 v => .ok (Value.fromU64 v)
  -- serialize_u64 (131-134): Ok(Value::from(val))
  | .u64 v => .ok (Value.fromU64 v)
  -- serialize_f32 / serialize_f64 (136-144)
  | .f32 bits => .ok (Value.F32 bits)
  | .f64 bits => .ok (Value.F64 bits)
  -- serialize_char (146-151): a one-character string through serialize_str
  | .char c => .ok (Value.String ⟨Except.ok (String.mk [c])⟩)
  -- serialize_str (153-156)
  | .str s => .ok (Value.String ⟨Except.ok s⟩)
  -- serialize_bytes (158-161)
  | .bytes b => .ok (Value.Binary b)
  -- serialize_unit (163-166)
  | .unit => .ok Value.Nil
  -- serialize_unit_struct (168-171): name dropped, empty array
  | .unitStruct _ => .ok (Value.Array [])
  -- serialize_unit_variant (173-180)
  | .unitVariant _ idx _ => .ok (Value.Array [Value.fromU32 idx, Value.Array []])
  -- serialize_newtype_struct (182-194): sentinel check, else to_value(value)
  | .newtypeStruct name v =>
    if name = MSGPACK_EXT_STRUCT_NAME then extCapture v else toValue v
  -- serialize_newtype_variant (196-204): no sentinel check; [idx, [value]]
  | .newtypeVariant _ idx _ v =>
    match toValue v with
    | .error e => .error e
    | .ok cv => .ok (Value.Array [Value.fromU32 idx, Value.Array [cv]])
  -- serialize_none (206-209): delegates to serialize_unit
  | .none => .ok Value.Nil
  -- serialize_some (211-216): value.serialize(self), a passthrough
  | .some v => toValue v
  -- serialize_seq (218-223) + SerializeSeq for SerializeVec (684-700)
  | .seq items =>
    match toValueList items with
    | .error e => .error e
    | .ok vs => .ok (Value.Array vs)
  -- serialize_tuple (225-227): delegates to serialize_seq
  | .tuple items =>
    match toValueList items with
    | .error e => .error e
    | .ok vs => .ok (Value.Array vs)
  -- serialize_tuple_struct (229-231): name dropped, delegates to serialize_tuple
  | .tupleStruct _ items =>
    match toValueList items with
    | .error e => .error e
    | .ok vs => .ok (Value.Array vs)
  -- serialize_tuple_variant (233-239) + SerializeTupleVariant (736-752)
  | .tupleVariant _ idx _ items =>
    match toValueList items with
    | .error e => .error e
    | .ok vs => .ok (Value.Array [Value.fromU32 idx, Value.Array vs])
  -- serialize_map (241-247) + SerializeMap for DefaultSerializeMap (754-781)
  | .map entries =>
    match toValuePairs entries with
    | .error e => .error e
    | .ok ps => .ok (Value.Map ps)
  -- serialize_struct (249-252): delegates to serialize_tuple_struct;
  -- SerializeStruct::serialize_field (783-798) drops the field name
  | .struct _ fields =>
    match toValueFields fields with
    | .error e => .error e
    | .ok vs => .ok (Value.Array vs)
  -- serialize_struct_variant (254-261) + SerializeStructVariant (800-819):
  -- field names dropped
  | .structVariant _ idx _ fields =>
    match toValueFields fields with
    | .error e => .error e
    | .ok vs => .ok (Value.Array [Value.fromU32 idx, Value.Array vs])

/-- The element loop of `SerializeVec` (se.rs:688-694): convert each element
with `to_value`, stopping at the first error. -/
def toValueList : List SerInput → Except Error (List Value)
  | [] => .ok []
  | x :: xs =>
    match toValue x with
    | .error e => .error e
    | .ok v =>
      match toValueList xs with
      | .error e => .error e
      | .ok vs => .ok (v :: vs)

/-- The entry loop of `DefaultSerializeMap` (se.rs:758-775) as driven by
`serialize_entry`: each pair converts its key first (`serialize_key`), then
its value (`serialize_value`), pairs kept in call order. -/
def toValuePairs : List (SerInput × SerInput) → Except Error (List (Value × Value))
  | [] => .ok []
  | (k, w) :: rest =>
    match toValue k with
    | .error e => .error e
    | .ok kv =>
      match toValue w with
      | .error e => .error e
      | .ok wv =>
        match toValuePairs rest with
        | .error e => .error e
        | .ok ps => .ok ((kv, wv) :: ps)

/-- The field loop of `SerializeStruct` / `SerializeStructVariant`
(se.rs:788-792, 805-810): the field name is dropped, the value converted. -/
def toValueFields : List (String × SerInput) → Except Error (List Value)
  | [] => .ok []
  | (_, v) :: rest =>
    match toValue v with
    | .error e => .error e
    | .ok cv =>
      match toValueFields rest with
      | .error e => .error e
      | .ok cvs => .ok (cv :: cvs)
end

/-- State of `DefaultSerializeMap` (se.rs:672-676): the accumulated pairs and
the pending converted key. -/
structure DefaultSerializeMap where
  map : List (Value × Value)
  next_key : Option Value

/-- One call a producer can make on an open map builder: supply a key or
supply a value (`SerializeMap::serialize_key` / `serialize_value`). -/
inductive MapCall where
  | key (k : SerInput)
  | val (v : SerInput)

/-- Outcome of running the map builder: a next state, a typed error, or the
programming-error-class abort (`expect` panic) — the two failure channels are
distinct. -/
inductive MapRunResult where
  | ok (st : DefaultSerializeMap)
  | err (e : Error)
  | panicked (msg : String)

/-- `DefaultSerializeMap::serialize_key` (se.rs:758-764): convert the key
immediately (`to_value(key)?`) and hold it pending. -/
def DefaultSerializeMap.serialize_key (st : DefaultSerializeMap) (k : SerInput) :
    Except Error DefaultSerializeMap :=
  match toValue k with
  | .error e => .error e
  | .ok kv => .ok { st with next_key := Option.some kv }

/-- `DefaultSerializeMap::serialize_value` (se.rs:766-775): take the pending
key — aborting (panic via `expect`) when none is pending, "because this
indicates a bug in the program rather than an expected failure" — then convert
the value and push the pair. -/
def DefaultSerializeMap.serialize_value (st : DefaultSerializeMap) (v : SerInput) :
    MapRunResult :=
  match st.next_key with
  | Option.none => .panicked "`serialize_value` called before `serialize_key`"
  | Option.some kv =>
    match toValue v with
    | .error e => .err e
    | .ok vv => .ok { map := st.map ++ [(kv, vv)], next_key := Option.none }

/-- `DefaultSerializeMap::end` (se.rs:777-780): finalize to a `Map` node with
the accumulated pairs (`end` is a Lean keyword, hence `finish`). -/
def DefaultSerializeMap.finish (st : DefaultSerializeMap) : Except Error Value :=
  .ok (Value.Map st.map)

/-- Run a sequence of key/value calls against the map builder, stopping at the
first typed error or abort. -/
def runMapCalls (st : DefaultSerializeMap) : List MapCall → MapRunResult
  | [] => .ok st
  | .key k :: rest =>
    match st.serialize_key k with
    | .error e => .err e
    | .ok st2 => runMapCalls st2 rest
  | .val v :: rest =>
    match st.serialize_value v with
    | .panicked m => .panicked m
    | .err e => .err e
    | .ok st2 => runMapCalls st2 rest

/-- The alternating key-then-value call sequence for a list of pairs. -/
def mapCallsOf : List (SerInput × SerInput) → List MapCall
  | [] => []
  | (k, v) :: rest => .key k :: .val v :: mapCallsOf rest

/-- Call sequences in which every supply-value call is immediately preceded by
a supply-key call. The flag records whether the previous call was a key, so a
value call is currently permitted. -/
def okSeq : Bool → List MapCall → Bool
  | _, [] => true
  | _, .key _ :: rest => okSeq true rest
  | allowed, .val _ :: rest => allowed && okSeq false rest

/-- Whether a map-builder run ended in the abort channel. -/
def MapRunResult.isPanic : MapRunResult → Bool
  | .panicked _ => true
  | _ => false

mutual
/-- `impl Serialize for Value` (se.rs:14-52): the calls an in-memory value
tree makes when driven through a serializer — its "structural twin" stream.
`Nil` → unit, `Boolean` → bool, `Integer` → u64/i64 by sign class,
`F32`/`F64` → f32/f64, `String` → str in the UTF-8-valid branch and bytes
(via `Bytes`) in the fallback branch (27-30), `Binary` → bytes, `Array` → a
seq of the elements, `Map` → a map of the entries, and `Ext` → a
newtype struct named by the sentinel wrapping the `(tag, bytes)` tuple
(46-49). -/
def Value.toSer : Value → SerInput
  | .Nil => .unit
  | .Boolean b => .bool b
  | .Integer ⟨IntPriv.PosInt n⟩ => .u64 n
  | .Integer ⟨IntPriv.NegInt v⟩ => .i64 v
  | .F32 bits => .f32 bits
  | .F64 bits => .f64 bits
  | .String ⟨Except.ok s⟩ => .str s
  | .String ⟨Except.error b⟩ => .bytes b
  | .Binary b => .bytes b
  | .Array items => .seq (toSerList items)
  | .Map entries => .map (toSerPairs entries)
  | .Ext tag payload =>
    .newtypeStruct MSGPACK_EXT_STRUCT_NAME (.tuple [.i8 tag, .bytes payload])

/-- Element-wise `Serialize` calls of an array's items (se.rs:32-38). -/
def toSerList : List Value → List SerInput
  | [] => []
  | v :: vs => Value.toSer v :: toSerList vs

/-- Entry-wise `Serialize` calls of a map's pairs (se.rs:39-45). -/
def toSerPairs : List (Value × Value) → List (SerInput × SerInput)
  | [] => []
  | (k, w) :: rest => (Value.toSer k, Value.toSer w) :: toSerPairs rest
end

mutual
/-- Whether a value tree contains no `String` node in the fallback-bytes
branch (the one branch of `impl Serialize for Value` that re-emits a node
through a different shape, se.rs:29). -/
def Value.utf8Ok : Value → Bool
  | .String ⟨Except.error _⟩ => false
  | .Array items => utf8OkList items
  | .Map entries => utf8OkPairs entries
  | _ => true

/-- `Value.utf8Ok` over an array's items. -/
def utf8OkList : List Value → Bool
  | [] => true
  | v :: vs => Value.utf8Ok v && utf8OkList vs

/-- `Value.utf8Ok` over a map's pairs. -/
def utf8OkPairs : List (Value × Value) → Bool
  | [] => true
  | (k, w) :: rest => (Value.utf8Ok k && Value.utf8Ok w) && utf8OkPairs rest
end

/-- C1 counterexample: driving `serialize_newtype_variant` with the reserved
sentinel name, index 0 and a well-formed `(i8, bytes)` tuple does NOT transfer
control to the Extension Capture Protocol: it produces the ordinary enum
encoding `Array[index, Array[convertedField]]`, not an `Ext` node — the
source's `serialize_newtype_variant` (se.rs:196-204) never compares the name
with `MSGPACK_EXT_STRUCT_NAME`. -/
theorem sentinel_newtype_variant_not_ext :
    toValue (.newtypeVariant MSGPACK_EXT_STRUCT_NAME 0 "x" (.tuple [.i8 5, .bytes [1, 2, 3]])) =
      .ok (Value.Array [Value.Integer ⟨IntPriv.PosInt 0⟩,
        Value.Array [Value.Array [Value.Integer ⟨IntPriv.NegInt 5⟩, Value.Binary [1, 2, 3]]]]) ∧
    Value.isExt (Value.Array [Value.Integer ⟨IntPriv.PosInt 0⟩,
        Value.Array [Value.Array [Value.Integer ⟨IntPriv.NegInt 5⟩, Value.Binary [1, 2, 3]]]]) =
      false :=
  ⟨rfl, rfl⟩

/-- C1 (amended): routing of the sentinel name. A non-enum named single-field
wrapper (`serialize_newtype_struct`) whose name equals the reserved sentinel
is routed to the Extension Capture Protocol, any other name converts as a
transparent wrapper; an enum single-field alternative
(`serialize_newtype_variant`) is never routed to extension capture — whatever
its name, it converts to `Array[index, Array[convertedField]]`; and whenever
extension capture succeeds, the node it produces is an `Ext` node. -/
theorem newtype_routing :
    (∀ name v, toValue (.newtypeStruct name v) =
        if name = MSGPACK_EXT_STRUCT_NAME then extCapture v else toValue v) ∧
    (∀ name idx variant v, toValue (.newtypeVariant name idx variant v) =
        (toValue v).map fun cv => Value.Array [Value.fromU32 idx, Value.Array [cv]]) ∧
    (∀ v r, extCapture v = .ok r → r.isExt = true) := by
  refine ⟨fun name v => by rw [toValue], fun name idx variant v => ?_, fun v r h => ?_⟩
  · rw [toValue]
    cases toValue v <;> simp [Except.map]
  · unfold extCapture at h
    cases hs : ExtSerializer.serialize ⟨Option.none⟩ v with
    | error e => rw [hs] at h; exact absurd h (by simp)
    | ok st =>
      rw [hs] at h
      obtain ⟨fse⟩ := st
      cases fse with
      | none => simp [ExtSerializer.value] at h
      | some fs =>
        obtain ⟨tg, bn⟩ := fs
        cases tg with
        | none => cases bn <;> simp [ExtSerializer.value, ExtFieldSerializer.value] at h
        | some t =>
          cases bn with
          | none => simp [ExtSerializer.value, ExtFieldSerializer.value] at h
          | some b =>
            have : Value.Ext t b = r := by
              simpa [ExtSerializer.value, ExtFieldSerializer.value] using h
            rw [← this]
            rfl

/-- C1 witness: extension capture at a concrete input produces an `Ext` node,
discharging the hypothesis of the third routing conjunct. -/
theorem newtype_routing_witness :
    extCapture (.tuple [.i8 0, .bytes []]) = .ok (Value.Ext 0 []) ∧
    Value.isExt (Value.Ext 0 []) = true :=
  ⟨rfl, newtype_routing.2.2 (.tuple [.i8 0, .bytes []]) (Value.Ext 0 []) rfl⟩

/-- C3: in the inner stage of extension capture, supplying the signed 8-bit
tag and the byte payload in either order — tag first, or bytes first — each
exactly once, finalizes to the same node `Ext(tag, payload)`. -/
theorem ext_capture_order_independent (tag : Int) (payload : List Nat) :
    extCapture (.tuple [.i8 tag, .bytes payload]) = .ok (Value.Ext tag payload) ∧
    extCapture (.tuple [.bytes payload, .i8 tag]) = .ok (Value.Ext tag payload) :=
  ⟨rfl, rfl⟩

/-- C4: finalizing the inner stage produces `Ext(tag, payload)` exactly when
both a tag and a payload were captured; only-tag, only-payload and neither are
fatal errors; and a second i8 fails with "received second i8" while a second
byte sequence fails with "expected i8 and bytes". -/
theorem ext_field_finalize_spec :
    (∀ t b, ExtFieldSerializer.value ⟨Option.some t, Option.some b⟩ = .ok (Value.Ext t b)) ∧
    (∀ t, ExtFieldSerializer.value ⟨Option.some t, Option.none⟩ =
        .error (Error.Syntax "expected i8 and bytes")) ∧
    (∀ b, ExtFieldSerializer.value ⟨Option.none, Option.some b⟩ =
        .error (Error.Syntax "expected i8 and bytes")) ∧
    (ExtFieldSerializer.value ⟨Option.none, Option.none⟩ =
        .error (Error.Syntax "expected i8 and bytes")) ∧
    (∀ st t v, st.tag = Option.some t →
        ExtFieldSerializer.serialize st (.i8 v) = .error (Error.Syntax "received second i8")) ∧
    (∀ st b bs, st.binary = Option.some b →
        ExtFieldSerializer.serialize st (.bytes bs) =
          .error (Error.Syntax "expected i8 and bytes")) := by
  refine ⟨fun t b => rfl, fun t => rfl, fun b => rfl, rfl,
    fun st t v h => ?_, fun st b bs h => ?_⟩
  · obtain ⟨tg, bn⟩ := st
    cases tg with
    | none => exact absurd h (by simp)
    | some t2 => rfl
  · obtain ⟨tg, bn⟩ := st
    cases bn with
    | none => exact absurd h (by simp)
    | some b2 => rfl

/-- C4 witness: the double-capture branches at concrete states. -/
theorem ext_field_finalize_spec_witness :
    ExtFieldSerializer.serialize ⟨Option.some 1, Option.none⟩ (.i8 2) =
      .error (Error.Syntax "received second i8") ∧
    ExtFieldSerializer.serialize ⟨Option.none, Option.some [3]⟩ (.bytes [4]) =
      .error (Error.Syntax "expected i8 and bytes") :=
  ⟨ext_field_finalize_spec.2.2.2.2.1 ⟨Option.some 1, Option.none⟩ 1 2 rfl,
   ext_field_finalize_spec.2.2.2.2.2 ⟨Option.none, Option.some [3]⟩ [3] [4] rfl⟩

/-- C5: the outer stage of extension capture accepts only the tuple
composite-open; every other serde call at that stage fails with
"expected tuple", and finalizing with no tuple ever opened fails with
"expected tuple" as well. -/
theorem ext_outer_expected_tuple :
    (∀ (st : ExtSerializer) (inp : SerInput), inp.isTuple = false →
        ExtSerializer.serialize st inp = .error (Error.Syntax "expected tuple")) ∧
    ExtSerializer.value ⟨Option.none⟩ = .error (Error.Syntax "expected tuple") := by
  refine ⟨fun st inp h => ?_, rfl⟩
  cases inp <;> first | rfl | (simp [SerInput.isTuple] at h)

/-- C5 witness: a primitive call at the outer stage, at a concrete input. -/
theorem ext_outer_expected_tuple_witness :
    SerInput.isTuple (.bool true) = false ∧
    ExtSerializer.serialize ⟨Option.none⟩ (.bool true) =
      .error (Error.Syntax "expected tuple") :=
  ⟨rfl, ext_outer_expected_tuple.1 ⟨Option.none⟩ (.bool true) rfl⟩

/-- C8: every signed width (8/16/32/64 bits, in range) converts, after the
value-preserving sign extension to 64 bits, to a signed-magnitude `Integer`
whose signed view recovers the exact value; every unsigned width converts,
after zero extension, to an unsigned-magnitude `Integer` whose unsigned view
recovers the exact magnitude. -/
theorem integer_width_conversion :
    (∀ v : Int, -128 ≤ v → v ≤ 127 →
        toValue (.i8 v) = .ok (Value.Integer ⟨IntPriv.NegInt v⟩) ∧
        Integer.as_i64 ⟨IntPriv.NegInt v⟩ = Option.some v) ∧
    (∀ v : Int, -32768 ≤ v → v ≤ 32767 →
        toValue (.i16 v) = .ok (Value.Integer ⟨IntPriv.NegInt v⟩) ∧
        Integer.as_i64 ⟨IntPriv.NegInt v⟩ = Option.some v) ∧
    (∀ v : Int, -2147483648 ≤ v → v ≤ 2147483647 →
        toValue (.i32 v) = .ok (Value.Integer ⟨IntPriv.NegInt v⟩) ∧
        Integer.as_i64 ⟨IntPriv.NegInt v⟩ = Option.some v) ∧
    (∀ v : Int, -9223372036854775808 ≤ v → v ≤ 9223372036854775807 →
        toValue (.i64 v) = .ok (Value.Integer ⟨IntPriv.NegInt v⟩) ∧
        Integer.as_i64 ⟨IntPriv.NegInt v⟩ = Option.some v) ∧
    (∀ n : Nat, n ≤ 255 →
        toValue (.u8 n) = .ok (Value.Integer ⟨IntPriv.PosInt n⟩) ∧
        Integer.as_u64 ⟨IntPriv.PosInt n⟩ = Option.some n) ∧
    (∀ n : Nat, n ≤ 65535 →
        toValue (.u16 n) = .ok (Value.Integer ⟨IntPriv.PosInt n⟩) ∧
        Integer.as_u64 ⟨IntPriv.PosInt n⟩ = Option.some n) ∧
    (∀ n : Nat, n ≤ 4294967295 →
        toValue (.u32 n) = .ok (Value.Integer ⟨IntPriv.PosInt n⟩) ∧
        Integer.as_u64 ⟨IntPriv.PosInt n⟩ = Option.some n) ∧
    (∀ n : Nat, n ≤ 18446744073709551615 →
        toValue (.u64 n) = .ok (Value.Integer ⟨IntPriv.PosInt n⟩) ∧
        Integer.as_u64 ⟨IntPriv.PosInt n⟩ = Option.some n) :=
  ⟨fun _ _ _ => ⟨rfl, rfl⟩, fun _ _ _ => ⟨rfl, rfl⟩, fun _ _ _ => ⟨rfl, rfl⟩,
   fun _ _ _ => ⟨rfl, rfl⟩, fun _ _ => ⟨rfl, rfl⟩, fun _ _ => ⟨rfl, rfl⟩,
   fun _ _ => ⟨rfl, rfl⟩, fun _ _ => ⟨rfl, rfl⟩⟩

/-- C8 witness: the spec's own examples — signed -1 and unsigned 255. -/
theorem integer_width_conversion_witness :
    toValue (.i8 (-1)) = .ok (Value.Integer ⟨IntPriv.NegInt (-1)⟩) ∧
    toValue (.u8 255) = .ok (Value.Integer ⟨IntPriv.PosInt 255⟩) :=
  ⟨(integer_width_conversion.1 (-1) (by decide) (by decide)).1,
   (integer_width_conversion.2.2.2.2.1 255 (by decide)).1⟩

/-- C9: a named zero-field unit marker converts to an empty `Array` node,
while the unit/absent signals (`unit` and `None`) convert to `Nil`; the two
encodings are distinct for every name. -/
theorem unit_struct_vs_nil :
    (∀ name, toValue (.unitStruct name) = .ok (Value.Array [])) ∧
    toValue .unit = .ok Value.Nil ∧
    toValue .none = .ok Value.Nil ∧
    (∀ name, toValue (.unitStruct name) ≠ toValue .unit) := by
  refine ⟨fun name => rfl, rfl, rfl, fun name => ?_⟩
  intro h
  rw [show toValue (.unitStruct name) = .ok (Value.Array []) from rfl,
    show toValue .unit = .ok Value.Nil from rfl] at h
  exact absurd h (by simp)

/-- C10: converting a present optional value `Some(v)` is a transparent
passthrough — it yields exactly the conversion of `v`, for every serde
input `v` (`serialize_some` forwards to `value.serialize(self)`). -/
theorem serialize_some_passthrough (v : SerInput) : toValue (.some v) = toValue v := rfl

/-- Helper for C6: running the alternating key/value call sequence of a pair
list from any accumulator appends exactly the converted pairs, in order. -/
theorem runMap_append (pairs : List (SerInput × SerInput)) :
    ∀ (acc : List (Value × Value)) (cpairs : List (Value × Value)),
      toValuePairs pairs = .ok cpairs →
      runMapCalls ⟨acc, Option.none⟩ (mapCallsOf pairs) = .ok ⟨acc ++ cpairs, Option.none⟩ := by
  induction pairs with
  | nil =>
    intro acc cpairs h
    rw [show toValuePairs [] = .ok ([] : List (Value × Value)) from rfl] at h
    injection h with h
    subst h
    simp [mapCallsOf, runMapCalls]
  | cons p rest ih =>
    obtain ⟨k, w⟩ := p
    intro acc cpairs h
    cases hk : toValue k with
    | error e => simp [toValuePairs, hk] at h
    | ok kv =>
      cases hw : toValue w with
      | error e => simp [toValuePairs, hk, hw] at h
      | ok wv =>
        cases hr : toValuePairs rest with
        | error e => simp [toValuePairs, hk, hw, hr] at h
        | ok ps =>
          have hc : (kv, wv) :: ps = cpairs := by
            simpa [toValuePairs, hk, hw, hr] using h
          subst hc
          simp only [mapCallsOf, runMapCalls, DefaultSerializeMap.serialize_key, hk,
            DefaultSerializeMap.serialize_value, hw]
          rw [ih (acc ++ [(kv, wv)]) ps hr]
          simp

/-- C6: for every sequence of key/value pairs supplied in alternating
key-then-value order, the finalized `Map` node's pair sequence is exactly the
converted pairs in arrival order — no reordering, no sorting, no
deduplication (a repeated key keeps one pair per occurrence, at its position
of arrival, since the result equals the input list of pairs). -/
theorem map_builder_preserves_order (pairs : List (SerInput × SerInput))
    (cpairs : List (Value × Value)) (h : toValuePairs pairs = .ok cpairs) :
    runMapCalls ⟨[], Option.none⟩ (mapCallsOf pairs) = .ok ⟨cpairs, Option.none⟩ ∧
    DefaultSerializeMap.finish ⟨cpairs, Option.none⟩ = .ok (Value.Map cpairs) := by
  refine ⟨?_, rfl⟩
  simpa using runMap_append pairs [] cpairs h

/-- C6 witness: three pairs with a repeated key "a" — both of its pairs are
kept, in arrival order. -/
theorem map_builder_preserves_order_witness :
    toValuePairs [(.str "a", .u8 1), (.str "b", .u8 2), (.str "a", .u8 3)] =
      .ok [(Value.String ⟨Except.ok "a"⟩, Value.Integer ⟨IntPriv.PosInt 1⟩),
           (Value.String ⟨Except.ok "b"⟩, Value.Integer ⟨IntPriv.PosInt 2⟩),
           (Value.String ⟨Except.ok "a"⟩, Value.Integer ⟨IntPriv.PosInt 3⟩)] ∧
    runMapCalls ⟨[], Option.none⟩
        (mapCallsOf [(.str "a", .u8 1), (.str "b", .u8 2), (.str "a", .u8 3)]) =
      .ok ⟨[(Value.String ⟨Except.ok "a"⟩, Value.Integer ⟨IntPriv.PosInt 1⟩),
            (Value.String ⟨Except.ok "b"⟩, Value.Integer ⟨IntPriv.PosInt 2⟩),
            (Value.String ⟨Except.ok "a"⟩, Value.Integer ⟨IntPriv.PosInt 3⟩)],
           Option.none⟩ :=
  ⟨rfl,
   (map_builder_preserves_order [(.str "a", .u8 1), (.str "b", .u8 2), (.str "a", .u8 3)]
      [(Value.String ⟨Except.ok "a"⟩, Value.Integer ⟨IntPriv.PosInt 1⟩),
       (Value.String ⟨Except.ok "b"⟩, Value.Integer ⟨IntPriv.PosInt 2⟩),
       (Value.String ⟨Except.ok "a"⟩, Value.Integer ⟨IntPriv.PosInt 3⟩)] rfl).1⟩

/-- C7: supplying a map value with no key pending is the programming-error
abort channel (the `expect` panic), distinct from the typed error channel;
and for every call sequence in which each supply-value call is immediately
preceded by a supply-key call, the run never reaches the abort. -/
theorem map_value_before_key_panics :
    (∀ (st : DefaultSerializeMap) (v : SerInput), st.next_key = Option.none →
        st.serialize_value v = .panicked "`serialize_value` called before `serialize_key`") ∧
    (∀ (calls : List MapCall) (st : DefaultSerializeMap),
        okSeq st.next_key.isSome calls = true →
        (runMapCalls st calls).isPanic = false) := by
  constructor
  · intro st v h
    obtain ⟨m, nk⟩ := st
    cases nk with
    | none => rfl
    | some kv => exact absurd h (by simp)
  · intro calls
    induction calls with
    | nil => intro st _; rfl
    | cons c rest ih =>
      intro st h
      cases c with
      | key k =>
        rw [okSeq] at h
        cases hk : toValue k with
        | error e =>
          simp only [runMapCalls, DefaultSerializeMap.serialize_key, hk]
          rfl
        | ok kv =>
          simp only [runMapCalls, DefaultSerializeMap.serialize_key, hk]
          exact ih { st with next_key := Option.some kv } h
      | val v =>
        rw [okSeq, Bool.and_eq_true] at h
        obtain ⟨hflag, hrest⟩ := h
        cases hnk : st.next_key with
        | none => rw [hnk] at hflag; exact absurd hflag (by simp)
        | some kv =>
          cases hv : toValue v with
          | error e =>
            simp only [runMapCalls, DefaultSerializeMap.serialize_value, hnk, hv]
            rfl
          | ok vv =>
            simp only [runMapCalls, DefaultSerializeMap.serialize_value, hnk, hv]
            exact ih ⟨st.map ++ [(kv, vv)], Option.none⟩ hrest

/-- C7 witness: the abort at a concrete value-first call, and a concrete
well-paired sequence that never aborts. -/
theorem map_value_before_key_panics_witness :
    DefaultSerializeMap.serialize_value ⟨[], Option.none⟩ (.bool true) =
      .panicked "`serialize_value` called before `serialize_key`" ∧
    (runMapCalls ⟨[], Option.none⟩ [.key .unit, .val (.bool true)]).isPanic = false :=
  ⟨map_value_before_key_panics.1 ⟨[], Option.none⟩ (.bool true) rfl,
   map_value_before_key_panics.2 [.key .unit, .val (.bool true)] ⟨[], Option.none⟩ rfl⟩

/-- Helper for C2: element-wise round trip over an array's items, given the
round trip of each member. -/
theorem toValueList_toSerList (items : List Value)
    (ih : ∀ x ∈ items, Value.utf8Ok x = true → toValue x.toSer = .ok x)
    (h : utf8OkList items = true) :
    toValueList (toSerList items) = .ok items := by
  induction items with
  | nil => rfl
  | cons v vs ihl =>
    rw [utf8OkList, Bool.and_eq_true] at h
    simp only [toSerList, toValueList, ih v (List.mem_cons_self v vs) h.1,
      ihl (fun x hx hok => ih x (List.mem_cons_of_mem v hx) hok) h.2]

/-- Helper for C2: entry-wise round trip over a map's pairs, given the round
trip of each key and each value. -/
theorem toValuePairs_toSerPairs (entries : List (Value × Value))
    (ih : ∀ p ∈ entries, (Value.utf8Ok p.1 = true → toValue p.1.toSer = .ok p.1) ∧
        (Value.utf8Ok p.2 = true → toValue p.2.toSer = .ok p.2))
    (h : utf8OkPairs entries = true) :
    toValuePairs (toSerPairs entries) = .ok entries := by
  induction entries with
  | nil => rfl
  | cons p rest ihl =>
    obtain ⟨k, w⟩ := p
    rw [utf8OkPairs, Bool.and_eq_true, Bool.and_eq_true] at h
    obtain ⟨⟨hk, hw⟩, hrest⟩ := h
    have hp := ih (k, w) (List.mem_cons_self (k, w) rest)
    simp only [toSerPairs, toValuePairs, hp.1 hk, hp.2 hw,
      ihl (fun q hq => ih q (List.mem_cons_of_mem (k, w) hq)) hrest]

/-- C2 (amended): converting a value-tree node through its own serialization
reproduces an identical tree for every node containing no fallback-bytes
`String` descendant; a fallback-bytes `String` node itself converts to a
`Binary` node carrying the same bytes (its `Serialize` impl re-emits it
through `serialize_bytes`), so the variant is not preserved on that branch. -/
theorem value_roundtrip :
    (∀ v : Value, v.utf8Ok = true → toValue v.toSer = .ok v) ∧
    (∀ b, toValue (Value.toSer (.String ⟨Except.error b⟩)) = .ok (Value.Binary b)) := by
  have main : ∀ (n : Nat) (v : Value), sizeOf v < n → v.utf8Ok = true →
      toValue v.toSer = .ok v := by
    intro n
    induction n with
    | zero => intro v hsz _; exact absurd hsz (Nat.not_lt_zero _)
    | succ n ih =>
      intro v hsz hok
      cases v with
      | Nil => rfl
      | Boolean b => rfl
      | Integer i =>
        obtain ⟨ip⟩ := i
        cases ip <;> rfl
      | F32 bits => rfl
      | F64 bits => rfl
      | String s =>
        obtain ⟨sv⟩ := s
        cases sv with
        | ok t => rfl
        | error b => exact absurd hok (by simp [Value.utf8Ok])
      | Binary b => rfl
      | Ext tag payload => rfl
      | Array items =>
        have h2 : sizeOf (Value.Array items) = 1 + sizeOf items := by simp
        have hels : ∀ x ∈ items, Value.utf8Ok x = true → toValue x.toSer = .ok x := by
          intro x hx hxok
          have h1 : sizeOf x < sizeOf items := List.sizeOf_lt_of_mem hx
          exact ih x (by omega) hxok
        have hlist : utf8OkList items = true := by
          rw [Value.utf8Ok] at hok
          exact hok
        simp only [Value.toSer, toValue, toValueList_toSerList items hels hlist]
      | Map entries =>
        have h2 : sizeOf (Value.Map entries) = 1 + sizeOf entries := by simp
        have hps : ∀ p ∈ entries,
            (Value.utf8Ok p.1 = true → toValue p.1.toSer = .ok p.1) ∧
            (Value.utf8Ok p.2 = true → toValue p.2.toSer = .ok p.2) := by
          intro p hp
          obtain ⟨k, w⟩ := p
          have hsp : sizeOf (k, w) < sizeOf entries := List.sizeOf_lt_of_mem hp
          have h3 : sizeOf ((k, w) : Value × Value) = 1 + sizeOf k + sizeOf w := by simp
          exact ⟨fun hx => ih k (by omega) hx, fun hx => ih w (by omega) hx⟩
        have hlist : utf8OkPairs entries = true := by
          rw [Value.utf8Ok] at hok
          exact hok
        simp only [Value.toSer, toValue, toValuePairs_toSerPairs entries hps hlist]
  exact ⟨fun v => main (sizeOf v + 1) v (Nat.lt_succ_self _), fun b => rfl⟩

/-- C2 counterexample: a `String` node in the fallback-bytes branch does not
round trip variant-for-variant — its own serialization converts it to a
`Binary` node, a different variant. -/
theorem string_fallback_roundtrip_changes_variant :
    toValue (Value.toSer (.String ⟨Except.error [255]⟩)) = .ok (Value.Binary [255]) ∧
    Value.Binary [255] ≠ Value.String ⟨Except.error [255]⟩ :=
  ⟨rfl, by simp⟩

/-- A concrete tree exercising every variant except the fallback `String`
branch, for the C2 witness. -/
def roundtripSample : Value :=
  Value.Array [Value.Nil, Value.Boolean true, Value.Integer ⟨IntPriv.PosInt 3⟩,
    Value.Integer ⟨IntPriv.NegInt (-7)⟩, Value.F32 5, Value.F64 6,
    Value.String ⟨Except.ok "ab"⟩, Value.Binary [1, 2],
    Value.Map [(Value.String ⟨Except.ok "k"⟩, Value.Ext 4 [9])]]

/-- C2 witness: the round trip at a concrete tree covering all variants but
the fallback branch. -/
theorem value_roundtrip_witness :
    Value.utf8Ok roundtripSample = true ∧
    toValue roundtripSample.toSer = .ok roundtripSample :=
  ⟨rfl, value_roundtrip.1 roundtripSample rfl⟩

end Rmpv
